import Mathlib

/-!
Shallow embedding of the asynchronous task-processing pipeline of the
scriptassist NestJS exercise repository: the `TasksService` entity/queue
operations (`create` in its two observed variants, `updateStatus`,
`updateManyWithSuccessStatus`) and the BullMQ worker `TaskProcessorService`
(`process`, `handleStatusUpdate`, `handleOverdueTasks`,
`calculateRetryDelay`).

Conventions of the embedding:
* machine strings are Lean `String`s; where the SQL-building code of
  `updateManyWithSuccessStatus` manipulates individual characters we work on
  `List Char`;
* the relational store is a `List Task`, the BullMQ queue a `List Job`, both
  bundled in `SysState`;
* `async` methods that can throw are `Except AppError`-valued; a thrown
  exception inside a TypeORM transaction leaves the pre-transaction state in
  place (rollback), which the embedding expresses by returning the error and
  leaving the input state untouched;
* external effects the repository code does not itself implement (the BullMQ
  retry driver, `tasksService.sendNotification`, JavaScript `Date` parsing,
  the database-generated id of a freshly saved entity, and injected
  write/enqueue faults) enter as explicit parameters.
-/

namespace ScriptAssist

/-- The single-quote character used by the SQL-literal manipulation in
`updateManyWithSuccessStatus` (`Char.ofNat 39` is `'`). -/
def sqlQuote : Char := Char.ofNat 39

/-- Value of `TaskStatus.COMPLETED` from the task-status enum. The enum source
file is not part of the excerpt, but its serialized value is pinned by the raw
SQL in `TasksService.getStatsAsync` (`task.status = 'COMPLETED'`) and by the
interpolation in `updateManyWithSuccessStatus`. -/
def TaskStatus.COMPLETED : String := "COMPLETED"

/-- A row of the `tasks` table, restricted to the columns the verified flows
read or write (`id`, `status`) plus the payload columns they carry along
unchanged. -/
structure Task where
  id : String
  status : String
  priority : String
  dueDate : Option String
  userId : String
deriving DecidableEq, Repr

/-- The dynamic payload `job.data` of a queued job: the repository stores an
untyped map; the fields read by any handler are `taskId`, `status` and
`overdueTaskIds`, each possibly absent. -/
structure JobData where
  taskId : Option String
  status : Option String
  overdueTaskIds : Option (List String)
deriving DecidableEq, Repr

/-- A BullMQ job as enqueued by `taskQueue.add`/`addBulk`: a name and a data
payload. -/
structure Job where
  name : String
  data : JobData
deriving DecidableEq, Repr

/-- The plain-object results returned by the job handlers
(`{success, error?, taskId?, newStatus?, processedCount?, message?}`). -/
structure HandlerResult where
  success : Bool
  error : Option String
  taskId : Option String
  newStatus : Option String
  processedCount : Option Nat
  message : Option String
deriving DecidableEq, Repr

/-- Exceptions thrown by the service layer: `NotFoundException`,
`InternalServerErrorException`, `HttpException(msg, code)` and the plain
`new Error(...)` of the worker. -/
inductive AppError where
  | notFound (msg : String)
  | internalServerError (msg : String)
  | httpError (msg : String) (code : Nat)
  | exception (msg : String)
deriving DecidableEq, Repr

/-- Combined observable state: the `tasks` table and the `task-processing`
queue. -/
structure SysState where
  tasks : List Task
  jobs : List Job
deriving DecidableEq, Repr

/-! ### SQL-literal construction in `updateManyWithSuccessStatus`

The bulk-complete SQL is built as
`"... where id in ('" + id.join().replace(',', "','") + "') ..."`.
JavaScript `Array.join()` with no argument joins with `","`, and
`String.replace` with a string pattern replaces only the first occurrence.
The definitions below embed that construction on `List Char` and recover the
list of quoted SQL literals the database lexer sees by splitting the
interpolated text on the three-character divider `','`. -/

/-- JavaScript `array.join()` on character lists: interleave a comma. -/
def joinComma : List (List Char) → List Char
  | [] => []
  | [x] => x
  | x :: y :: xs => x ++ ',' :: joinComma (y :: xs)

/-- JavaScript `s.replace(',', rep)` with a string pattern: replace only the
first comma. -/
def replaceFirstComma (rep : List Char) : List Char → List Char
  | [] => []
  | c :: rest => if c == ',' then rep ++ rest else c :: replaceFirstComma rep rest

/-- Prepend a character to the first chunk of a split result. -/
def consHead (c : Char) : List (List Char) → List (List Char)
  | [] => [[c]]
  | x :: xs => (c :: x) :: xs

/-- Split a character list on the three-character sequence `','` (leftmost
occurrences first): this is how the SQL lexer separates the quoted literals of
the interpolated `in ('...')` list. -/
def splitQCQ : List Char → List (List Char)
  | [] => [[]]
  | [a] => consHead a (splitQCQ [])
  | [a, b] => consHead a (splitQCQ [b])
  | a :: b :: c :: rest =>
    if a == sqlQuote && b == ',' && c == sqlQuote then [] :: splitQCQ rest
    else consHead a (splitQCQ (b :: c :: rest))

/-- The quoted SQL literals produced for an id list by
`'${id.join().replace(',', "','")}'`, on `List Char`. -/
def quotedLiteralsL (ids : List (List Char)) : List (List Char) :=
  splitQCQ (replaceFirstComma [sqlQuote, ',', sqlQuote] (joinComma ids))

/-- The quoted SQL literals produced for an id list, on `String`. -/
def quotedLiterals (ids : List String) : List String :=
  (quotedLiteralsL (ids.map String.toList)).map String.mk

example : quotedLiterals ["a"] = ["a"] := by decide
example : quotedLiterals ["a", "b"] = ["a", "b"] := by decide
example : quotedLiterals ["a", "b", "c"] = ["a", "b,c"] := by decide
example : quotedLiterals ["a", "b", "c", "d"] = ["a", "b,c,d"] := by decide

/-! ### TasksService entity operations -/

/-- `TasksService.findOne`: `findOneOrFail({where: {id}})`, with failure mapped
to `NotFoundException`. -/
def findOne (id : String) (ts : List Task) : Except AppError Task :=
  match ts.find? (fun t => t.id == id) with
  | some t => Except.ok t
  | none => Except.error (AppError.notFound ("Task with ID " ++ id ++ " not found"))

/-- TypeORM `repository.save(t)`: update the row with `t`'s primary key if it
exists, otherwise insert. -/
def saveTask (t : Task) (ts : List Task) : List Task :=
  if ts.any (fun u => u.id == t.id) then
    ts.map (fun u => if u.id = t.id then t else u)
  else ts ++ [t]

/-- `TasksService.updateStatus(id, status)`: fetch the task fresh, overwrite
its status (no validation of the value), save. -/
def updateStatus (id status : String) (ts : List Task) :
    Except AppError (Task × List Task) := do
  let t ← findOne id ts
  let t' := { t with status := status }
  Except.ok (t', saveTask t' ts)

/-! ### TaskProcessorService -/

/-- JavaScript truthiness test used by `if (!taskId || !status)` on string
fields: absent (`undefined`) and the empty string are falsy. -/
def jsFalsy : Option String → Bool
  | none => true
  | some s => s.isEmpty

/-- `TaskProcessorService.handleStatusUpdate`: destructure `{taskId, status}`
from `job.data`; if either is falsy return a `success: false` result (without
throwing); otherwise delegate to `TasksService.updateStatus` and report
`{success: true, taskId, newStatus}`. -/
def handleStatusUpdate (d : JobData) (ts : List Task) :
    Except AppError (HandlerResult × List Task) :=
  if jsFalsy d.taskId || jsFalsy d.status then
    Except.ok (⟨false, some "Missing required data", none, none, none, none⟩, ts)
  else
    match updateStatus (d.taskId.getD "") (d.status.getD "") ts with
    | Except.ok (task, ts') =>
      Except.ok (⟨true, none, some task.id, some task.status, none, none⟩, ts')
    | Except.error e => Except.error e

/-- The task store after `handleStatusUpdate`: the updated store on success,
the unchanged store when the handler threw (the repository write never
happened). -/
def statusUpdateState (d : JobData) (ts : List Task) : List Task :=
  match handleStatusUpdate d ts with
  | Except.ok (_, ts') => ts'
  | Except.error _ => ts

/-- One iteration trace of the `for (const taskId of taskIds)` loop of
`handleOverdueTasks`: each id is attempted in order via
`processSingleTaskNotification` (whose effect is the external `notify`
oracle); a per-id failure is caught and logged, the loop continues. Returns
the number of successful notifications and the list of ids attempted. -/
def notifyLoop (notify : String → Except String Unit) :
    List String → Nat × List String
  | [] => (0, [])
  | id :: rest =>
    match notify id with
    | Except.ok _ =>
      let r := notifyLoop notify rest
      (r.1 + 1, id :: r.2)
    | Except.error _ =>
      let r := notifyLoop notify rest
      (r.1, id :: r.2)

/-- `TaskProcessorService.handleOverdueTasks`: read
`job.data.overdueTaskIds || []`; on an empty list return
`{success: true, processedCount: 0, message: 'No overdue tasks found'}`
before touching anything; otherwise run the notification loop and report the
count. The second component is the list of ids for which a notification
dispatch was attempted. -/
def handleOverdueTasks (notify : String → Except String Unit) (d : JobData) :
    HandlerResult × List String :=
  let taskIds := d.overdueTaskIds.getD []
  if taskIds.length = 0 then
    (⟨true, none, none, none, some 0, some "No overdue tasks found"⟩, [])
  else
    let r := notifyLoop notify taskIds
    (⟨true, none, none, none, some r.1,
      some ("Processed " ++ toString r.1 ++ " overdue tasks")⟩, r.2)

/-- `TaskProcessorService.MAX_RETRIES`. -/
def MAX_RETRIES : Nat := 3

/-- `TaskProcessorService.calculateRetryDelay`:
`Math.pow(2, attemptsMade) * 1000`. -/
def calculateRetryDelay (attemptsMade : Nat) : Nat :=
  2 ^ attemptsMade * 1000

/-- Observable outcome of one `process` call, as seen by the BullMQ driver:
the handler returned a value (job completes), or the error was rethrown after
an exponential-backoff sleep (BullMQ may redeliver), or `handleFinalFailure`
ran and the error was rethrown with retries exhausted. -/
inductive ProcOutcome where
  | completed (result : HandlerResult)
  | retryScheduled (delay : Nat)
  | finalFailure (e : AppError)
deriving DecidableEq, Repr

/-- The `switch (job.name)` dispatch of `process`: two known handlers, and
`throw new Error('Unknown job type')` for everything else. -/
def runHandler (notify : String → Except String Unit) (job : Job)
    (ts : List Task) : Except AppError (HandlerResult × List Task) :=
  if job.name = "task-status-update" then
    handleStatusUpdate job.data ts
  else if job.name = "overdue-tasks-notification" then
    Except.ok ((handleOverdueTasks notify job.data).1, ts)
  else
    Except.error (AppError.exception "Unknown job type")

/-- `TaskProcessorService.process`: dispatch on `job.name`; on success return
the handler result (job completed). On any error, if
`job.attemptsMade < MAX_RETRIES` sleep `calculateRetryDelay(attemptsMade)`
and rethrow so BullMQ retries, else run `handleFinalFailure` and rethrow. -/
def process (notify : String → Except String Unit) (job : Job)
    (attemptsMade : Nat) (ts : List Task) : ProcOutcome × List Task :=
  match runHandler notify job ts with
  | Except.ok (r, ts') => (ProcOutcome.completed r, ts')
  | Except.error e =>
    if attemptsMade < MAX_RETRIES then
      (ProcOutcome.retryScheduled (calculateRetryDelay attemptsMade), ts)
    else
      (ProcOutcome.finalFailure e, ts)

/-! ### TasksService.create, both observed variants

The file `tasks.service.ts` contains two versions of the class. The first
`create` wraps the entity save and the `taskQueue.add` in one
`dataSource.transaction`, turning an enqueue failure into a thrown
`InternalServerErrorException` that rolls the entity write back. The second
`create` saves the entity, then calls `taskQueue.add` without `await` and
without error handling (fire and forget), and returns the saved task
regardless. Both are parameterized by the entity row the database would
produce (`savedTask`, carrying the generated id), by the outcome of the
JavaScript-`Date` validity check of `dueDate` (first variant only) and by
injected faults for the entity write and the enqueue. -/

/-- The job `create` enqueues for a saved task. -/
def createJob (savedTask : Task) : Job :=
  ⟨"task-status-update", ⟨some savedTask.id, some savedTask.status, none⟩⟩

/-- First (transactional) `TasksService.create`. -/
def createTx (savedTask : Task) (dueDateBad saveFails addFails : Bool)
    (s : SysState) : Except AppError (Task × SysState) :=
  if dueDateBad then Except.error (AppError.httpError "Invalid Date Format" 401)
  else if saveFails then
    Except.error (AppError.internalServerError "save failed")
  else if addFails then
    Except.error (AppError.internalServerError "Failed to queue task for processing")
  else
    Except.ok (savedTask,
      ⟨saveTask savedTask s.tasks, s.jobs ++ [createJob savedTask]⟩)

/-- Second (fire-and-forget) `TasksService.create`: the entity write commits
on its own; the unawaited `taskQueue.add` rejection is unobserved, so the
method still returns the saved task with no job enqueued. -/
def createFF (savedTask : Task) (saveFails addFails : Bool)
    (s : SysState) : Except AppError (Task × SysState) :=
  if saveFails then
    Except.error (AppError.internalServerError "save failed")
  else if addFails then
    Except.ok (savedTask, ⟨saveTask savedTask s.tasks, s.jobs⟩)
  else
    Except.ok (savedTask,
      ⟨saveTask savedTask s.tasks, s.jobs ++ [createJob savedTask]⟩)

/-! ### TasksService.updateManyWithSuccessStatus -/

/-- The job pushed onto `bulkUpdate` for each row returned by the bulk
UPDATE (note the `tasktask-status-update` name used by this flow). -/
def statusJob (r : Task) : Job :=
  ⟨"tasktask-status-update", ⟨some r.id, some TaskStatus.COMPLETED, none⟩⟩

/-- The rows the bulk `UPDATE ... RETURNING *` yields: tasks whose id matches
one of the interpolated SQL literals and whose status differs from
`COMPLETED`, with their status rewritten. -/
def bulkCompleteRows (lits : List String) (ts : List Task) : List Task :=
  (ts.filter (fun t => lits.contains t.id && !(t.status == TaskStatus.COMPLETED))).map
    (fun t => { t with status := TaskStatus.COMPLETED })

/-- The `tasks` table after the bulk UPDATE commits. -/
def applyBulkComplete (lits : List String) (ts : List Task) : List Task :=
  ts.map (fun t =>
    if lits.contains t.id && !(t.status == TaskStatus.COMPLETED) then
      { t with status := TaskStatus.COMPLETED }
    else t)

/-- `TasksService.updateManyWithSuccessStatus(id)`: inside one transaction,
run the interpolated bulk UPDATE, build one `tasktask-status-update` queue
entry per returned row, throw `NotFoundException` if no row transitioned,
then `addBulk` the entries (an `addBulk` failure throws
`InternalServerErrorException` and rolls the transaction back). -/
def updateManyWithSuccessStatus (ids : List String) (addBulkFails : Bool)
    (s : SysState) : Except AppError (List Task × SysState) :=
  let lits := quotedLiterals ids
  let rows := bulkCompleteRows lits s.tasks
  if rows.isEmpty then Except.error (AppError.notFound "Task not found")
  else if addBulkFails then
    Except.error (AppError.internalServerError "Failed to enqueue task update")
  else
    Except.ok (rows,
      ⟨applyBulkComplete lits s.tasks, s.jobs ++ rows.map statusJob⟩)

/-! ### Helper lemmas -/

/-- Whether the external notification oracle succeeds on an id. -/
def notifySucceeds (notify : String → Except String Unit) (id : String) : Bool :=
  match notify id with
  | Except.ok _ => true
  | Except.error _ => false

theorem notifyLoop_spec (notify : String → Except String Unit) (l : List String) :
    (notifyLoop notify l).1 = l.countP (notifySucceeds notify)
    ∧ (notifyLoop notify l).2 = l := by
  induction l with
  | nil => simp [notifyLoop]
  | cons id rest ih =>
    cases hn : notify id with
    | ok u =>
      simp [notifyLoop, hn, List.countP_cons, notifySucceeds, ih.1, ih.2]
    | error e =>
      simp [notifyLoop, hn, List.countP_cons, notifySucceeds, ih.1, ih.2]

theorem find_eq_id {id : String} {t : Task} {ts : List Task}
    (h : ts.find? (fun u => u.id == id) = some t) : t.id = id := by
  have := List.find?_some h
  simpa using this

theorem find_map_update (id : String) (t' : Task) (h : t'.id = id)
    (ts : List Task) (hex : ∃ u ∈ ts, u.id = id) :
    (ts.map (fun u => if u.id = t'.id then t' else u)).find?
      (fun u => u.id == id) = some t' := by
  induction ts with
  | nil =>
    rcases hex with ⟨u, hu, _⟩
    cases hu
  | cons v ts ih =>
    by_cases hv : v.id = id
    · have hv' : v.id = t'.id := by rw [hv, h]
      simp [hv', h]
    · have hv' : ¬ v.id = t'.id := by rw [h]; exact hv
      rcases hex with ⟨u, hu, hid⟩
      rcases List.mem_cons.mp hu with rfl | hu'
      · exact absurd hid hv
      · simpa [hv', hv] using ih ⟨u, hu', hid⟩

theorem map_update_self (t' : Task) (ts : List Task) :
    (ts.map (fun u => if u.id = t'.id then t' else u)).map
      (fun u => if u.id = t'.id then t' else u) =
    ts.map (fun u => if u.id = t'.id then t' else u) := by
  rw [List.map_map]
  apply List.map_congr_left
  intro u _
  by_cases hu : u.id = t'.id <;> simp [Function.comp, hu]

theorem updateStatus_ok {id : String} (st : String) {ts : List Task} {t : Task}
    (h : ts.find? (fun u => u.id == id) = some t) :
    updateStatus id st ts =
      Except.ok ({t with status := st}, saveTask {t with status := st} ts) := by
  unfold updateStatus findOne
  rw [h]
  rfl

theorem updateStatus_err {id : String} (st : String) {ts : List Task}
    (h : ts.find? (fun u => u.id == id) = none) :
    updateStatus id st ts =
      Except.error (AppError.notFound ("Task with ID " ++ id ++ " not found")) := by
  unfold updateStatus findOne
  rw [h]
  rfl

theorem updateStatus_idem (id st : String) (ts : List Task) {t : Task}
    (h : ts.find? (fun u => u.id == id) = some t) :
    updateStatus id st (saveTask {t with status := st} ts) =
      Except.ok ({t with status := st}, saveTask {t with status := st} ts) := by
  have hid : t.id = id := find_eq_id h
  have ht'id : (Task.mk t.id st t.priority t.dueDate t.userId).id = id := hid
  have hmem : t ∈ ts := List.mem_of_find?_eq_some h
  have hupd : ({t with status := st} : Task) =
      Task.mk t.id st t.priority t.dueDate t.userId := rfl
  rw [hupd]
  have hany : ts.any
      (fun u => u.id == (Task.mk t.id st t.priority t.dueDate t.userId).id) = true := by
    rw [List.any_eq_true]
    exact ⟨t, hmem, by simp⟩
  have hsave : saveTask (Task.mk t.id st t.priority t.dueDate t.userId) ts =
      ts.map (fun u =>
        if u.id = (Task.mk t.id st t.priority t.dueDate t.userId).id then
          Task.mk t.id st t.priority t.dueDate t.userId
        else u) := by
    unfold saveTask
    rw [if_pos hany]
  have hfind2 : (saveTask (Task.mk t.id st t.priority t.dueDate t.userId) ts).find?
      (fun u => u.id == id) = some (Task.mk t.id st t.priority t.dueDate t.userId) := by
    rw [hsave]
    exact find_map_update id _ ht'id ts ⟨t, hmem, hid⟩
  rw [updateStatus_ok st hfind2]
  have hsave2 : saveTask (Task.mk t.id st t.priority t.dueDate t.userId)
      (saveTask (Task.mk t.id st t.priority t.dueDate t.userId) ts) =
      saveTask (Task.mk t.id st t.priority t.dueDate t.userId) ts := by
    rw [hsave]
    have hany2 : (ts.map (fun u =>
        if u.id = (Task.mk t.id st t.priority t.dueDate t.userId).id then
          Task.mk t.id st t.priority t.dueDate t.userId
        else u)).any
        (fun u => u.id == (Task.mk t.id st t.priority t.dueDate t.userId).id) = true := by
      rw [List.any_eq_true]
      refine ⟨Task.mk t.id st t.priority t.dueDate t.userId, ?_, by simp⟩
      rw [List.mem_map]
      exact ⟨t, hmem, by simp⟩
    unfold saveTask
    rw [if_pos hany2]
    exact map_update_self _ ts
  rw [hsave2]

/-! ### Lemmas on the SQL-literal machinery -/

theorem splitQCQ_step {a : Char} (h : a ≠ sqlQuote) (l : List Char) :
    splitQCQ (a :: l) = consHead a (splitQCQ l) := by
  cases l with
  | nil => rfl
  | cons b l' =>
    cases l' with
    | nil => rfl
    | cons c v =>
      have hb : (a == sqlQuote) = false := by simp [h]
      simp [splitQCQ, hb]

theorem splitQCQ_quotefree {s : List Char} (h : sqlQuote ∉ s) : splitQCQ s = [s] := by
  induction s with
  | nil => rfl
  | cons a t ih =>
    have ha : a ≠ sqlQuote := fun he => h (by rw [he]; exact List.mem_cons_self _ _)
    have ht : sqlQuote ∉ t := fun hm => h (List.mem_cons_of_mem _ hm)
    rw [splitQCQ_step ha, ih ht]
    rfl

theorem splitQCQ_append {a : List Char} (h : sqlQuote ∉ a) (t : List Char) :
    splitQCQ (a ++ sqlQuote :: ',' :: sqlQuote :: t) = a :: splitQCQ t := by
  induction a with
  | nil =>
    simp [splitQCQ]
  | cons x a' ih =>
    have hx : x ≠ sqlQuote := fun he => h (by rw [he]; exact List.mem_cons_self _ _)
    have ha' : sqlQuote ∉ a' := fun hm => h (List.mem_cons_of_mem _ hm)
    rw [List.cons_append, splitQCQ_step hx, ih ha']
    rfl

theorem replaceFirstComma_nocomma (rep : List Char) {s : List Char}
    (h : ',' ∉ s) : replaceFirstComma rep s = s := by
  induction s with
  | nil => rfl
  | cons c t ih =>
    have hc : c ≠ ',' := fun he => h (by rw [he]; exact List.mem_cons_self _ _)
    have hcb : (c == ',') = false := by simp [hc]
    have ht : ',' ∉ t := fun hm => h (List.mem_cons_of_mem _ hm)
    simp [replaceFirstComma, hcb, ih ht]

theorem replaceFirstComma_append (rep : List Char) {a : List Char}
    (h : ',' ∉ a) (t : List Char) :
    replaceFirstComma rep (a ++ ',' :: t) = a ++ rep ++ t := by
  induction a with
  | nil => simp [replaceFirstComma]
  | cons x a' ih =>
    have hx : x ≠ ',' := fun he => h (by rw [he]; exact List.mem_cons_self _ _)
    have hxb : (x == ',') = false := by simp [hx]
    have ha' : ',' ∉ a' := fun hm => h (List.mem_cons_of_mem _ hm)
    simp [replaceFirstComma, hxb, ih ha']

theorem joinComma_noquote {l : List (List Char)} (h : ∀ x ∈ l, sqlQuote ∉ x) :
    sqlQuote ∉ joinComma l := by
  induction l with
  | nil => simp [joinComma]
  | cons x t ih =>
    cases t with
    | nil => simpa [joinComma] using h x (List.mem_cons_self _ _)
    | cons y ys =>
      have hj : joinComma (x :: y :: ys) = x ++ ',' :: joinComma (y :: ys) := rfl
      rw [hj]
      intro hm
      rcases List.mem_append.mp hm with hm | hm
      · exact h x (List.mem_cons_self _ _) hm
      · rcases List.mem_cons.mp hm with he | hm'
        · exact absurd he (by decide)
        · exact ih (fun z hz => h z (List.mem_cons_of_mem _ hz)) hm'

/-! ### Concrete fixtures used by witnesses and counterexamples -/

/-- A demonstration row, matching the e2e test dto. -/
def demoTask : Task := ⟨"T1", "PENDING", "MEDIUM", none, "U1"⟩

/-- A notification oracle that always succeeds. -/
def notifyOk : String → Except String Unit := fun _ => Except.ok ()

/-! ### Claims -/

/-- C1. The claim says every `TasksService.create` call keeps the entity
write and the job enqueue atomic. The transactional first variant does: with
the enqueue failing it throws and commits nothing. The second,
fire-and-forget variant does not: with the enqueue failing it still returns
the saved task and commits a state holding the task but no job. -/
theorem c1_create_enqueue_atomicity :
    createTx demoTask false false true ⟨[], []⟩ =
      Except.error (AppError.internalServerError "Failed to queue task for processing")
    ∧ createFF demoTask false true ⟨[], []⟩ =
      Except.ok (demoTask, ⟨[demoTask], []⟩) :=
  ⟨rfl, rfl⟩

/-- C2 counterexample. An unknown `job.name` at `attemptsMade = 0` is not an
immediate terminal failure: `process` schedules a 1000 ms backoff and
rethrows for retry instead of marking the job failed. -/
theorem c2_counterexample :
    process notifyOk ⟨"bogus-job-type", ⟨none, none, none⟩⟩ 0 [] =
      (ProcOutcome.retryScheduled 1000, []) :=
  rfl

/-- C2 amended. An unknown `job.name` raises `Error('Unknown job type')`, and
`process` treats it like any other failure: while `attemptsMade < MAX_RETRIES`
it schedules an exponential-backoff retry, and only with retries exhausted
does it run the final-failure path. -/
theorem c2_unknown_type_retried (name : String) (d : JobData)
    (notify : String → Except String Unit) (n : Nat) (ts : List Task)
    (h1 : name ≠ "task-status-update")
    (h2 : name ≠ "overdue-tasks-notification") :
    process notify ⟨name, d⟩ n ts =
      (if n < MAX_RETRIES then
        ProcOutcome.retryScheduled (calculateRetryDelay n)
       else ProcOutcome.finalFailure (AppError.exception "Unknown job type"),
       ts) := by
  unfold process runHandler
  simp only [h1, if_false, h2, ite_false]
  by_cases hn : n < MAX_RETRIES <;> simp [hn]

/-- C2 witness: the amended statement evaluated at a fresh attempt and at an
exhausted attempt of a concrete unknown job. -/
theorem c2_unknown_type_retried_witness :
    process notifyOk ⟨"bogus-job-type", ⟨none, none, none⟩⟩ 2 [demoTask] =
      (if 2 < MAX_RETRIES then
        ProcOutcome.retryScheduled (calculateRetryDelay 2)
       else ProcOutcome.finalFailure (AppError.exception "Unknown job type"),
       [demoTask])
    ∧ process notifyOk ⟨"bogus-job-type", ⟨none, none, none⟩⟩ 3 [demoTask] =
      (if 3 < MAX_RETRIES then
        ProcOutcome.retryScheduled (calculateRetryDelay 3)
       else ProcOutcome.finalFailure (AppError.exception "Unknown job type"),
       [demoTask]) :=
  ⟨c2_unknown_type_retried _ _ notifyOk 2 _ (by decide) (by decide),
   c2_unknown_type_retried _ _ notifyOk 3 _ (by decide) (by decide)⟩

/-- C3 counterexample. A `task-status-update` job missing `status` does not
transition to Failed: the handler returns a `success: false` object without
throwing, so `process` returns it and the job completes. -/
theorem c3_counterexample :
    process notifyOk ⟨"task-status-update", ⟨some "T1", none, none⟩⟩ 0 [] =
      (ProcOutcome.completed ⟨false, some "Missing required data", none, none, none, none⟩,
       []) :=
  rfl

/-- C3 amended. For a `task-status-update` job whose `taskId` or `status` is
missing (or empty), the handler reports the validation failure in its return
value; no retry and no backoff occur and the task store is untouched, but the
job completes successfully rather than transitioning to Failed. -/
theorem c3_missing_field_completes (d : JobData)
    (notify : String → Except String Unit) (n : Nat) (ts : List Task)
    (h : jsFalsy d.taskId = true ∨ jsFalsy d.status = true) :
    process notify ⟨"task-status-update", d⟩ n ts =
      (ProcOutcome.completed ⟨false, some "Missing required data", none, none, none, none⟩,
       ts) := by
  unfold process runHandler handleStatusUpdate
  have hb : (jsFalsy d.taskId || jsFalsy d.status) = true := by
    rcases h with h | h <;> simp [h]
  simp [hb]

/-- C3 witness: the amended statement at the spec scenario
`StatusUpdate{taskId: "T1"}` with `status` absent. -/
theorem c3_missing_field_completes_witness :
    process notifyOk ⟨"task-status-update", ⟨some "T1", none, none⟩⟩ 1 [demoTask] =
      (ProcOutcome.completed ⟨false, some "Missing required data", none, none, none, none⟩,
       [demoTask]) :=
  c3_missing_field_completes ⟨some "T1", none, none⟩ notifyOk 1 [demoTask]
    (Or.inr rfl)

/-- C5 counterexample. `calculateRetryDelay` has no finite cap: no choice of
base and `maxDelay` makes it equal `min(maxDelay, base · 2^n)` for every
attempt count. -/
theorem c5_counterexample :
    ¬ ∃ base maxDelay : Nat, ∀ n : Nat,
      calculateRetryDelay n = min maxDelay (base * 2 ^ n) := by
  rintro ⟨b, M, h⟩
  have h2 : calculateRetryDelay M ≤ M := by
    rw [h M]; exact min_le_left _ _
  have h3 : M < calculateRetryDelay M := by
    unfold calculateRetryDelay
    calc M < 2 ^ M := Nat.lt_two_pow M
      _ = 2 ^ M * 1 := (Nat.mul_one _).symm
      _ ≤ 2 ^ M * 1000 := Nat.mul_le_mul_left _ (by norm_num)
  omega

/-- C5 amended. The retry delay is the uncapped `base · 2^n` with
`base = 1000`; the delay computation is only reached for attempts below
`MAX_RETRIES = 3`, and on that range the capped formula of the claim holds
with cap 4000 (so no computed delay ever exceeds 4000 ms). -/
theorem c5_delay_formula (n : Nat) :
    calculateRetryDelay n = 2 ^ n * 1000
    ∧ (n < MAX_RETRIES → calculateRetryDelay n = min 4000 (1000 * 2 ^ n)) := by
  refine ⟨rfl, fun h => ?_⟩
  have h3 : n < 3 := h
  interval_cases n <;> decide

/-- C5 witness: the amended statement at the last attempt that computes a
delay. -/
theorem c5_delay_formula_witness :
    calculateRetryDelay 2 = 2 ^ 2 * 1000
    ∧ calculateRetryDelay 2 = min 4000 (1000 * 2 ^ 2) :=
  ⟨(c5_delay_formula 2).1, (c5_delay_formula 2).2 (by decide)⟩

/-- C7. The retry delay is monotonically non-decreasing in the attempt
count. -/
theorem c7_delay_monotone (n : Nat) :
    calculateRetryDelay n ≤ calculateRetryDelay (n + 1) := by
  unfold calculateRetryDelay
  exact Nat.mul_le_mul (Nat.pow_le_pow_right (by norm_num) (Nat.le_succ n))
    (Nat.le_refl 1000)

/-- C6. For an `overdue-tasks-notification` job with a non-empty id list,
every id is attempted even when some notifications fail, the handler reports
`success: true` with `processedCount` the number of ids notified without
error, and `process` completes the job instead of failing it. -/
theorem c6_overdue_partial_failure (notify : String → Except String Unit)
    (ids : List String) (d : JobData) (n : Nat) (ts : List Task)
    (hne : ids ≠ []) (hd : d.overdueTaskIds = some ids) :
    handleOverdueTasks notify d =
      (⟨true, none, none, none, some (ids.countP (notifySucceeds notify)),
        some ("Processed " ++ toString (ids.countP (notifySucceeds notify)) ++
          " overdue tasks")⟩, ids)
    ∧ process notify ⟨"overdue-tasks-notification", d⟩ n ts =
      (ProcOutcome.completed
        ⟨true, none, none, none, some (ids.countP (notifySucceeds notify)),
          some ("Processed " ++ toString (ids.countP (notifySucceeds notify)) ++
            " overdue tasks")⟩, ts) := by
  have hlen : ¬ ids.length = 0 := by
    simpa [List.length_eq_zero] using hne
  have hh : handleOverdueTasks notify d =
      (⟨true, none, none, none, some (ids.countP (notifySucceeds notify)),
        some ("Processed " ++ toString (ids.countP (notifySucceeds notify)) ++
          " overdue tasks")⟩, ids) := by
    unfold handleOverdueTasks
    rw [hd]
    simp only [Option.getD_some, if_neg hlen]
    rw [(notifyLoop_spec notify ids).1, (notifyLoop_spec notify ids).2]
  refine ⟨hh, ?_⟩
  unfold process runHandler
  simp [hh]

/-- A notification oracle that fails exactly on id `B` (the spec scenario). -/
def notifyFailB : String → Except String Unit :=
  fun id => if id = "B" then Except.error "notification failure" else Except.ok ()

/-- C6 witness: the spec scenario `overdueTaskIds = [A, B, C]` with `B`
failing gives `processedCount = 2` and a completed job. -/
theorem c6_overdue_partial_failure_witness :
    handleOverdueTasks notifyFailB ⟨none, none, some ["A", "B", "C"]⟩ =
      (⟨true, none, none, none, some 2, some "Processed 2 overdue tasks"⟩,
       ["A", "B", "C"])
    ∧ process notifyFailB
        ⟨"overdue-tasks-notification", ⟨none, none, some ["A", "B", "C"]⟩⟩ 0 [] =
      (ProcOutcome.completed
        ⟨true, none, none, none, some 2, some "Processed 2 overdue tasks"⟩, []) := by
  have h := c6_overdue_partial_failure notifyFailB ["A", "B", "C"]
    ⟨none, none, some ["A", "B", "C"]⟩ 0 [] (by decide) rfl
  constructor
  · rw [h.1]
    decide
  · rw [h.2]
    decide

/-- C8. The StatusUpdate handler is idempotent: rerunning it on the state it
produced returns the same result and the same state. -/
theorem c8_status_update_idempotent (d : JobData) (ts : List Task) :
    handleStatusUpdate d (statusUpdateState d ts) = handleStatusUpdate d ts
    ∧ statusUpdateState d (statusUpdateState d ts) = statusUpdateState d ts := by
  by_cases hf : (jsFalsy d.taskId || jsFalsy d.status) = true
  · have h1 : handleStatusUpdate d ts =
        Except.ok (⟨false, some "Missing required data", none, none, none, none⟩, ts) := by
      unfold handleStatusUpdate
      rw [if_pos hf]
    have hs : statusUpdateState d ts = ts := by
      unfold statusUpdateState
      rw [h1]
    rw [hs]
    exact ⟨rfl, hs⟩
  · have hf' : (jsFalsy d.taskId || jsFalsy d.status) = false := by
      simpa using hf
    cases hfind : ts.find? (fun u => u.id == d.taskId.getD "") with
    | none =>
      have hu := updateStatus_err (d.status.getD "") hfind
      have h1 : handleStatusUpdate d ts =
          Except.error (AppError.notFound
            ("Task with ID " ++ d.taskId.getD "" ++ " not found")) := by
        unfold handleStatusUpdate
        rw [if_neg (by simp [hf']), hu]
      have hs : statusUpdateState d ts = ts := by
        unfold statusUpdateState
        rw [h1]
      rw [hs]
      exact ⟨rfl, hs⟩
    | some t =>
      have hu := updateStatus_ok (d.status.getD "") hfind
      have h1 : handleStatusUpdate d ts =
          Except.ok (⟨true, none, some ({t with status := d.status.getD ""} : Task).id,
            some ({t with status := d.status.getD ""} : Task).status, none, none⟩,
            saveTask {t with status := d.status.getD ""} ts) := by
        unfold handleStatusUpdate
        rw [if_neg (by simp [hf']), hu]
      have h2 : handleStatusUpdate d (saveTask {t with status := d.status.getD ""} ts) =
          Except.ok (⟨true, none, some ({t with status := d.status.getD ""} : Task).id,
            some ({t with status := d.status.getD ""} : Task).status, none, none⟩,
            saveTask {t with status := d.status.getD ""} ts) := by
        unfold handleStatusUpdate
        rw [if_neg (by simp [hf']), updateStatus_idem _ _ _ hfind]
      have hs : statusUpdateState d ts = saveTask {t with status := d.status.getD ""} ts := by
        unfold statusUpdateState
        rw [h1]
      have hs2 : statusUpdateState d (statusUpdateState d ts) =
          saveTask {t with status := d.status.getD ""} ts := by
        rw [hs]
        unfold statusUpdateState
        rw [h2]
      exact ⟨by rw [hs, h2, h1], by rw [hs2, hs]⟩

/-- C10. An `overdue-tasks-notification` job whose payload lacks
`overdueTaskIds` or carries an empty list dispatches no notification, touches
no task, and completes with
`{success: true, processedCount: 0, message: 'No overdue tasks found'}`. -/
theorem c10_empty_overdue (notify : String → Except String Unit) (d : JobData)
    (n : Nat) (ts : List Task)
    (h : d.overdueTaskIds = none ∨ d.overdueTaskIds = some []) :
    handleOverdueTasks notify d =
      (⟨true, none, none, none, some 0, some "No overdue tasks found"⟩, [])
    ∧ process notify ⟨"overdue-tasks-notification", d⟩ n ts =
      (ProcOutcome.completed
        ⟨true, none, none, none, some 0, some "No overdue tasks found"⟩, ts) := by
  have hd : handleOverdueTasks notify d =
      (⟨true, none, none, none, some 0, some "No overdue tasks found"⟩, []) := by
    unfold handleOverdueTasks
    rcases h with h | h <;> simp [h]
  refine ⟨hd, ?_⟩
  unfold process runHandler
  simp [hd]

/-- C10 witness: a payload with the key absent. -/
theorem c10_empty_overdue_witness :
    handleOverdueTasks notifyOk ⟨none, none, none⟩ =
      (⟨true, none, none, none, some 0, some "No overdue tasks found"⟩, [])
    ∧ process notifyOk ⟨"overdue-tasks-notification", ⟨none, none, none⟩⟩ 0 [demoTask] =
      (ProcOutcome.completed
        ⟨true, none, none, none, some 0, some "No overdue tasks found"⟩, [demoTask]) :=
  c10_empty_overdue notifyOk ⟨none, none, none⟩ 0 [demoTask] (Or.inl rfl)

/-- C9. The interpolated SQL id list joins the ids with `,` and replaces only
the first comma with `','`: for one or two well-formed ids each becomes its
own quoted literal, while from the third id on everything is folded into the
second quoted literal, so exactly two literals remain. -/
theorem c9_sql_literal_folding (ids : List (List Char))
    (hq : ∀ x ∈ ids, sqlQuote ∉ x) (hc : ∀ x ∈ ids, ',' ∉ x) :
    (∀ a, ids = [a] → quotedLiteralsL ids = ids)
    ∧ (∀ a b, ids = [a, b] → quotedLiteralsL ids = ids)
    ∧ (∀ a b c rest, ids = a :: b :: c :: rest →
        quotedLiteralsL ids = [a, joinComma (b :: c :: rest)]
        ∧ (quotedLiteralsL ids).length = 2) := by
  refine ⟨?_, ?_, ?_⟩
  · rintro a rfl
    have hja : joinComma [a] = a := rfl
    unfold quotedLiteralsL
    rw [hja, replaceFirstComma_nocomma _ (hc a (List.mem_cons_self _ _)),
      splitQCQ_quotefree (hq a (List.mem_cons_self _ _))]
  · rintro a b rfl
    have hb : b ∈ [a, b] := List.mem_cons_of_mem _ (List.mem_cons_self _ _)
    have hja : joinComma [a, b] = a ++ ',' :: b := rfl
    unfold quotedLiteralsL
    rw [hja, replaceFirstComma_append _ (hc a (List.mem_cons_self _ _))]
    have hassoc : a ++ [sqlQuote, ',', sqlQuote] ++ b =
        a ++ sqlQuote :: ',' :: sqlQuote :: b := by
      rw [List.append_assoc]
      rfl
    rw [hassoc, splitQCQ_append (hq a (List.mem_cons_self _ _)),
      splitQCQ_quotefree (hq b hb)]
  · rintro a b c rest rfl
    have hja : joinComma (a :: b :: c :: rest) =
        a ++ ',' :: joinComma (b :: c :: rest) := rfl
    have htail : sqlQuote ∉ joinComma (b :: c :: rest) :=
      joinComma_noquote (fun z hz => hq z (List.mem_cons_of_mem _ hz))
    have hmain : quotedLiteralsL (a :: b :: c :: rest) =
        [a, joinComma (b :: c :: rest)] := by
      unfold quotedLiteralsL
      rw [hja, replaceFirstComma_append _ (hc a (List.mem_cons_self _ _))]
      have hassoc : a ++ [sqlQuote, ',', sqlQuote] ++ joinComma (b :: c :: rest) =
          a ++ sqlQuote :: ',' :: sqlQuote :: joinComma (b :: c :: rest) := by
        rw [List.append_assoc]
        rfl
      rw [hassoc, splitQCQ_append (hq a (List.mem_cons_self _ _)),
        splitQCQ_quotefree htail]
    exact ⟨hmain, by rw [hmain]; rfl⟩

/-- C9 witness: with ids `x`, `y`, `z` the third id is folded into the second
literal, and with ids `x`, `y` alone both stay separate. -/
theorem c9_sql_literal_folding_witness :
    quotedLiteralsL [['x'], ['y'], ['z']] = [['x'], joinComma [['y'], ['z']]]
    ∧ (quotedLiteralsL [['x'], ['y'], ['z']]).length = 2
    ∧ quotedLiteralsL [['x'], ['y']] = [['x'], ['y']] := by
  have h3 := (c9_sql_literal_folding [['x'], ['y'], ['z']] (by decide) (by decide)).2.2
    ['x'] ['y'] ['z'] [] rfl
  have h2 := (c9_sql_literal_folding [['x'], ['y']] (by decide) (by decide)).2.1
    ['x'] ['y'] rfl
  exact ⟨h3.1, h3.2, h2⟩

/-- C4. For a non-empty id list, `updateManyWithSuccessStatus` transitions
only rows whose status is not already `COMPLETED` (already-completed rows are
left in place), enqueues exactly one downstream status-update job per
transitioned row, and throws `NotFoundException` when no row transitions. -/
theorem c4_bulk_complete (ids : List String) (hne : ids ≠ []) (s : SysState) :
    (∀ r ∈ bulkCompleteRows (quotedLiterals ids) s.tasks,
      r.status = TaskStatus.COMPLETED
      ∧ ∃ t ∈ s.tasks, ¬ t.status = TaskStatus.COMPLETED ∧ r.id = t.id)
    ∧ (∀ t ∈ s.tasks, t.status = TaskStatus.COMPLETED →
        t ∈ applyBulkComplete (quotedLiterals ids) s.tasks)
    ∧ (bulkCompleteRows (quotedLiterals ids) s.tasks = [] →
        updateManyWithSuccessStatus ids false s =
          Except.error (AppError.notFound "Task not found"))
    ∧ (∀ rows, rows = bulkCompleteRows (quotedLiterals ids) s.tasks → ¬ rows = [] →
        updateManyWithSuccessStatus ids false s =
          Except.ok (rows,
            ⟨applyBulkComplete (quotedLiterals ids) s.tasks,
             s.jobs ++ rows.map statusJob⟩)
        ∧ (rows.map statusJob).length = rows.length) := by
  refine ⟨?_, ?_, ?_, ?_⟩
  · intro r hr
    unfold bulkCompleteRows at hr
    rcases List.mem_map.mp hr with ⟨t, htf, rfl⟩
    rcases List.mem_filter.mp htf with ⟨hmem, hp⟩
    have hst : ¬ t.status = TaskStatus.COMPLETED := by
      simp at hp
      exact hp.2
    exact ⟨rfl, t, hmem, hst, rfl⟩
  · intro t ht hst
    have hfix : (fun u => if (quotedLiterals ids).contains u.id &&
        !(u.status == TaskStatus.COMPLETED) then
          { u with status := TaskStatus.COMPLETED } else u) t = t := by
      simp [hst]
    have hmm := List.mem_map_of_mem (fun u => if (quotedLiterals ids).contains u.id &&
        !(u.status == TaskStatus.COMPLETED) then
          { u with status := TaskStatus.COMPLETED } else u) ht
    rw [hfix] at hmm
    unfold applyBulkComplete
    exact hmm
  · intro hrows
    unfold updateManyWithSuccessStatus
    simp [hrows]
  · rintro rows rfl hne'
    have hemp : (bulkCompleteRows (quotedLiterals ids) s.tasks).isEmpty = false := by
      simpa [List.isEmpty_iff] using hne'
    refine ⟨?_, by rw [List.length_map]⟩
    unfold updateManyWithSuccessStatus
    simp [hemp]

/-- A pending task with id `X` and an already-completed task with id `Y`. -/
def taskX : Task := ⟨"X", "PENDING", "LOW", none, "U1"⟩

/-- The already-completed fixture row. -/
def taskY : Task := ⟨"Y", "COMPLETED", "LOW", none, "U1"⟩

/-- The `X` row after the bulk transition. -/
def taskXdone : Task := ⟨"X", "COMPLETED", "LOW", none, "U1"⟩

/-- C4 witness: the spec scenario `enqueueBulkComplete(["X","Y"])` with `Y`
already completed transitions only `X` and enqueues exactly one downstream
job. -/
theorem c4_bulk_complete_witness :
    updateManyWithSuccessStatus ["X", "Y"] false ⟨[taskX, taskY], []⟩ =
      Except.ok ([taskXdone],
        ⟨[taskXdone, taskY], [statusJob taskXdone]⟩)
    ∧ ([taskXdone].map statusJob).length = 1 := by
  have h := (c4_bulk_complete ["X", "Y"] (by decide) ⟨[taskX, taskY], []⟩).2.2.2
    [taskXdone] (by decide) (by decide)
  refine ⟨?_, h.2⟩
  rw [h.1]
  rfl

end ScriptAssist
